import Mathlib

/-!
Verification development for the Anki-MCP spaced-repetition engine.

The definitions below are a shallow embedding of the JavaScript source:

* `Scheduler.scheduleCard` / `scheduleNewCard` / `scheduleLearningCard` /
  `scheduleReviewCard` (src/unnamed/part_003) — the `Scheduler` class.
* `applyScheduling` and the `anki_answer_card` handler
  (src/src/server/tools/card-tools.js).
* `CardRepository.findDueCards` / the `anki_get_next_card` SQL ordering
  (src/unnamed/part_001, card-tools.js).
* the cloze-marker scanner of `anki.generate_cards_for_note`
  (note-tools.js) and `CSVImporter.generateCards` (csv-importer.js).
* the `tag:` condition of `parseSearchQuery` (src/unnamed/part_005),
  including SQLite `LIKE` semantics (ASCII case-insensitive, `%`/`_`
  wildcards).
* `CSVImporter.processRecord` and the import batch loop
  (csv-importer.js; the Markdown importer's `processRecord` is identical
  on the modelled fields).

JavaScript numbers are embedded as `ℚ` (ease, configuration multipliers)
and `ℤ`/`ℕ` (days, counters); `Math.ceil` is `Int.ceil` on `ℚ`;
`Math.max` is `max` on `ℚ`.  The fuzz factor drawn from `Math.random()`
is passed as an explicit parameter.
-/

namespace AnkiMCP

/-- Card states, exactly the six strings used by the source. -/
inductive CState
  | new
  | learning
  | relearning
  | review
  | suspended
  | buried
deriving DecidableEq, Repr

/-- `leechAction` configuration value: `'suspend'` or `'tag'`. -/
inductive LeechAction
  | suspend
  | tag
deriving DecidableEq, Repr

/-- Deck configuration, the fields of the `Scheduler` constructor defaults
(src/unnamed/part_003, lines 5–19). -/
structure Config where
  learningStepsMins : List ℤ
  graduatingIntervalDays : ℤ
  easyBonus : ℚ
  hardInterval : ℚ
  lapseStepsMins : List ℤ
  newPerDay : ℕ
  reviewsPerDay : ℕ
  minEase : ℚ
  leechThreshold : ℕ
  leechAction : LeechAction
  fuzzPercent : ℚ
  burySiblings : Bool
deriving DecidableEq, Repr

/-- The default configuration of the `Scheduler` constructor and of
`ensureDeckExists` in the importers. -/
def defaultConfig : Config where
  learningStepsMins := [1, 10]
  graduatingIntervalDays := 1
  easyBonus := 1.3
  hardInterval := 1.2
  lapseStepsMins := [10]
  newPerDay := 20
  reviewsPerDay := 200
  minEase := 1.3
  leechThreshold := 8
  leechAction := .suspend
  fuzzPercent := 0.05
  burySiblings := true

/-- Scheduling fields of a card: `(state, due, ivl, ease, reps, lapses)`. -/
structure SchedState where
  state : CState
  due : ℤ
  ivl : ℤ
  ease : ℚ
  reps : ℕ
  lapses : ℕ
deriving DecidableEq, Repr

/-- `Scheduler.scheduleNewCard(state, rating, today)`
(src/unnamed/part_003 lines 65–87).  `reps` was already incremented by the
caller `scheduleCard`. -/
def scheduleNewCard (cfg : Config) (s : SchedState) (rating : ℕ) (today : ℤ) :
    SchedState :=
  match rating with
  | 1 => { s with state := .learning, due := today, ivl := 0 }
  | 2 => { s with state := .learning, due := today, ivl := 0 }
  | 3 => { s with state := .learning, due := today, ivl := 0 }
  | 4 =>
      let ivl : ℤ := ⌈(cfg.graduatingIntervalDays : ℚ) * cfg.easyBonus⌉
      { s with state := .review, ivl := ivl, due := today + ivl,
               ease := 2.5 + 0.15 }
  | _ => s

/-- `Scheduler.scheduleLearningCard(state, rating, today)`
(src/unnamed/part_003 lines 89–118).  The `steps` local of the source is
read but never used; the `if (state.ease === 2.5) state.ease = 2.5`
assignment is kept verbatim (it is a no-op). -/
def scheduleLearningCard (cfg : Config) (s : SchedState) (rating : ℕ)
    (today : ℤ) : SchedState :=
  match rating with
  | 1 => { s with due := today, ivl := 0 }
  | 2 | 3 | 4 =>
      let s1 := { s with state := CState.review,
                         ivl := cfg.graduatingIntervalDays,
                         due := today + cfg.graduatingIntervalDays }
      let s2 := if s1.ease = 2.5 then { s1 with ease := 2.5 } else s1
      if rating = 4 then
        let ivl : ℤ := ⌈(s2.ivl : ℚ) * cfg.easyBonus⌉
        { s2 with ivl := ivl, due := today + ivl, ease := s2.ease + 0.15 }
      else s2
  | _ => s

/-- `Scheduler.scheduleReviewCard(state, rating, today)`
(src/unnamed/part_003 lines 120–161), with the value of
`this.getFuzzFactor()` passed in as `fuzzFactor`.  The final minimum
interval fix-up (`if (state.ivl < 1) ...`) applies to the result of every
rating branch. -/
def scheduleReviewCard (cfg : Config) (fuzzFactor : ℚ) (s : SchedState)
    (rating : ℕ) (today : ℤ) : SchedState :=
  let s1 :=
    match rating with
    | 1 =>
        let t := { s with lapses := s.lapses + 1, state := CState.relearning,
                          ease := max cfg.minEase (s.ease - 0.2),
                          due := today, ivl := 0 }
        if t.lapses ≥ cfg.leechThreshold then
          if cfg.leechAction = .suspend then { t with state := .suspended }
          else t
        else t
    | 2 =>
        let ease := max cfg.minEase (s.ease - 0.15)
        let ivl : ℤ := ⌈(s.ivl : ℚ) * cfg.hardInterval * fuzzFactor⌉
        { s with ease := ease, ivl := ivl, due := today + ivl }
    | 3 =>
        let ivl : ℤ := ⌈(s.ivl : ℚ) * s.ease * fuzzFactor⌉
        { s with ivl := ivl, due := today + ivl }
    | 4 =>
        let ease := s.ease + 0.15
        let ivl : ℤ := ⌈(s.ivl : ℚ) * ease * cfg.easyBonus * fuzzFactor⌉
        { s with ease := ease, ivl := ivl, due := today + ivl }
    | _ => s
  if s1.ivl < 1 then { s1 with ivl := 1, due := today + 1 } else s1

/-- `Scheduler.scheduleCard(card, rating)` (src/unnamed/part_003 lines
23–63): dispatch on the current state, incrementing `reps` for `new` and
`review` cards; any other state throws (`none`).  Returns the
`(beforeState, afterState)` pair of the source. -/
def scheduleCard (cfg : Config) (fuzzFactor : ℚ) (card : SchedState)
    (rating : ℕ) (today : ℤ) : Option (SchedState × SchedState) :=
  match card.state with
  | .new =>
      some (card, scheduleNewCard cfg { card with reps := card.reps + 1 }
        rating today)
  | .learning | .relearning =>
      some (card, scheduleLearningCard cfg card rating today)
  | .review =>
      some (card, scheduleReviewCard cfg fuzzFactor
        { card with reps := card.reps + 1 } rating today)
  | _ => none

/-- `applyScheduling(beforeState, rating, config)` from
src/src/server/tools/card-tools.js lines 358–424 — the "simplified
scheduling algorithm" actually invoked by the `anki_answer_card` handler.
`fuzzR` is the sampled value of `(Math.random() - 0.5) * 2 *
config.fuzzPercent`.  A state not covered by the `switch` (suspended,
buried) falls through and returns the copy of `beforeState` unchanged. -/
def applyScheduling (before : SchedState) (rating : ℕ) (cfg : Config)
    (today : ℤ) (fuzzR : ℚ) : SchedState :=
  match before.state with
  | .new =>
      let a := { before with reps := before.reps + 1 }
      if rating = 1 then { a with state := CState.learning, due := today, ivl := 0 }
      else if rating = 4 then
        let ivl : ℤ := ⌈(cfg.graduatingIntervalDays : ℚ) * cfg.easyBonus⌉
        { a with state := CState.review, ivl := ivl, due := today + ivl,
                 ease := 2.5 + 0.15 }
      else { a with state := CState.learning, due := today, ivl := 0 }
  | .learning | .relearning =>
      if rating = 1 then { before with due := today, ivl := 0 }
      else
        let a := { before with state := CState.review,
                               ivl := cfg.graduatingIntervalDays,
                               due := today + cfg.graduatingIntervalDays }
        if before.state = .new then { a with ease := 2.5 } else a
  | .review =>
      let a := { before with reps := before.reps + 1 }
      if rating = 1 then
        { a with lapses := a.lapses + 1, state := CState.relearning,
                 ease := max cfg.minEase (a.ease - 0.2),
                 due := today, ivl := 0 }
      else
        let multiplier := a.ease
        let step :
            ℚ × SchedState :=
          if rating = 2 then
            (cfg.hardInterval, { a with ease := max cfg.minEase (a.ease - 0.15) })
          else if rating = 4 then
            (a.ease * cfg.easyBonus, { a with ease := a.ease + 0.15 })
          else (multiplier, a)
        let ivl : ℤ := ⌈(step.2.ivl : ℚ) * step.1 * (1 + fuzzR)⌉
        { step.2 with ivl := ivl, due := today + ivl }
  | _ => before

/-- `Math.ceil(1 * 1.3) = 2`, the graduating interval of the default
configuration under the easy bonus. -/
theorem ceil_13_10 : (⌈(13 / 10 : ℚ)⌉ : ℤ) = 2 := by
  rw [Int.ceil_eq_iff]; norm_num

/-! ## The card store and the `anki_answer_card` handler

The handler (card-tools.js lines 116–200) runs three SQL statements in
sequence, with **no** enclosing transaction (`BEGIN`/`COMMIT` appears only
in the migration runner): a SELECT of the card joined with its deck
config, an `UPDATE cards ...` and an `INSERT INTO reviews ...`.  Under
SQLite autocommit each statement is durable on its own, so the model
applies the update to the store before the insert is attempted;
`insertFails` injects a failure of the INSERT (e.g. a storage error), in
which case the handler throws with the UPDATE already committed. -/

/-- A row of the `cards` table (the fields the modelled queries touch). -/
structure CardRow where
  id : ℕ
  note_id : ℕ
  sched : SchedState
  queue_position : Option ℤ
deriving DecidableEq, Repr

/-- A row of the `reviews` table. -/
structure ReviewRow where
  card_id : ℕ
  ts : ℤ
  rating : ℕ
  ivl_before : ℤ
  ivl_after : ℤ
  ease_before : ℚ
  ease_after : ℚ
  state_before : CState
  state_after : CState
deriving DecidableEq, Repr

/-- The persistent store as seen by the card tools. -/
structure DB where
  cards : List CardRow
  reviews : List ReviewRow
deriving DecidableEq, Repr

/-- `SELECT ... FROM cards c ... WHERE c.id = ?` — first matching row. -/
def findCard (db : DB) (cardId : ℕ) : Option CardRow :=
  db.cards.find? (fun c => c.id == cardId)

/-- `UPDATE cards SET state = ?, due = ?, ivl = ?, ease = ?, reps = ?,
lapses = ?, updated_at = ? WHERE id = ?`. -/
def updateCard (db : DB) (cardId : ℕ) (after : SchedState) : DB :=
  { db with
    cards := db.cards.map fun c =>
      if c.id = cardId then { c with sched := after } else c }

/-- Outcome of a handler run: the final store, and whether the handler
returned normally (`ok = true`) or threw. -/
structure RunOutcome where
  db : DB
  ok : Bool
deriving DecidableEq, Repr

/-- The `anki_answer_card` handler (card-tools.js lines 116–200).
`cfg` is the card's deck configuration fetched by the SELECT's JOIN; `ts`
is the `answeredAt` timestamp; `fuzzR` the sampled fuzz.  The card UPDATE
and the review INSERT are two separate autocommitted statements; the
handler does nothing else (in particular it never touches sibling
cards). -/
def answerCardRun (db : DB) (cardId : ℕ) (rating : ℕ) (cfg : Config)
    (today : ℤ) (ts : ℤ) (fuzzR : ℚ) (insertFails : Bool) : RunOutcome :=
  match findCard db cardId with
  | none => { db := db, ok := false }
  | some card =>
      let before := card.sched
      let after := applyScheduling before rating cfg today fuzzR
      let db1 := updateCard db cardId after
      if insertFails then { db := db1, ok := false }
      else
        { db := { db1 with
                  reviews := db1.reviews ++
                    [⟨cardId, ts, rating, before.ivl, after.ivl,
                      before.ease, after.ease, before.state, after.state⟩] },
          ok := true }

/-! ## The review queue (`anki_get_next_card` / `findDueCards`)

The SQL of card-tools.js lines 43–62:
`WHERE c.state IN ('learning','relearning','new','review') AND c.due <= ?`
`ORDER BY CASE c.state WHEN 'learning' THEN 1 WHEN 'relearning' THEN 2
WHEN 'new' THEN 3 WHEN 'review' THEN 4 END, c.due ASC,
c.queue_position ASC, c.id ASC LIMIT 1`.
In SQLite a bare `ASC` sort key places NULL values **first**. -/

/-- The `CASE c.state ... END` sort key.  States outside the `WHERE`
filter never reach the ORDER BY; they are mapped to 5. -/
def statePrio : CState → ℤ
  | .learning => 1
  | .relearning => 2
  | .new => 3
  | .review => 4
  | _ => 5

/-- The selection predicate of the queue query. -/
def isDueCandidate (today : ℤ) (c : CardRow) : Bool :=
  (c.sched.state == .learning || c.sched.state == .relearning ||
   c.sched.state == .new || c.sched.state == .review) &&
  c.sched.due ≤ today

/-- `queue_position ASC` under SQLite NULL ordering: NULL sorts before
every value. -/
def qpLt : Option ℤ → Option ℤ → Prop
  | none, none => False
  | none, some _ => True
  | some _, none => False
  | some a, some b => a < b

instance : DecidableRel qpLt := fun a b =>
  match a, b with
  | none, none => inferInstanceAs (Decidable False)
  | none, some _ => inferInstanceAs (Decidable True)
  | some _, none => inferInstanceAs (Decidable False)
  | some x, some y => inferInstanceAs (Decidable (x < y))

/-- Strict lexicographic comparison realising the full `ORDER BY` list of
the queue query. -/
def rowLt (a b : CardRow) : Prop :=
  statePrio a.sched.state < statePrio b.sched.state ∨
  (statePrio a.sched.state = statePrio b.sched.state ∧
    (a.sched.due < b.sched.due ∨
     (a.sched.due = b.sched.due ∧
       (qpLt a.queue_position b.queue_position ∨
        (a.queue_position = b.queue_position ∧ a.id < b.id)))))

instance : DecidableRel rowLt := fun a b =>
  inferInstanceAs (Decidable (_ ∨ _))

/-- The candidate rows of the queue query, in table order. -/
def dueCandidates (db : DB) (today : ℤ) : List CardRow :=
  db.cards.filter (isDueCandidate today)

/-- `ORDER BY ... LIMIT 1`: the minimum of the candidates under `rowLt`
(the first one in table order among rows no other candidate sorts
strictly before). -/
def nextCard (db : DB) (today : ℤ) : Option CardRow :=
  match dueCandidates db today with
  | [] => none
  | h :: t => some (t.foldl (fun acc c => if rowLt c acc then c else acc) h)

/-- The ordering the spec prescribes instead: `queue_position ASC NULLS
LAST`.  Modelled from the spec: identical to `rowLt` except that a NULL
`queue_position` sorts after every value. -/
def qpLtSpec : Option ℤ → Option ℤ → Prop
  | none, none => False
  | none, some _ => False
  | some _, none => True
  | some a, some b => a < b

instance : DecidableRel qpLtSpec := fun a b =>
  match a, b with
  | none, none => inferInstanceAs (Decidable False)
  | none, some _ => inferInstanceAs (Decidable False)
  | some _, none => inferInstanceAs (Decidable True)
  | some x, some y => inferInstanceAs (Decidable (x < y))

/-- Modelled from the spec: the claim's ordering, with NULL
`queue_position` last. -/
def rowLtSpec (a b : CardRow) : Prop :=
  statePrio a.sched.state < statePrio b.sched.state ∨
  (statePrio a.sched.state = statePrio b.sched.state ∧
    (a.sched.due < b.sched.due ∨
     (a.sched.due = b.sched.due ∧
       (qpLtSpec a.queue_position b.queue_position ∨
        (a.queue_position = b.queue_position ∧ a.id < b.id)))))

instance : DecidableRel rowLtSpec := fun a b =>
  inferInstanceAs (Decidable (_ ∨ _))

/-- Modelled from the spec: `get_next_card` under the spec's NULLS LAST
ordering. -/
def nextCardSpec (db : DB) (today : ℤ) : Option CardRow :=
  match dueCandidates db today with
  | [] => none
  | h :: t => some (t.foldl (fun acc c => if rowLtSpec c acc then c else acc) h)

/-! Order-theoretic facts about `rowLt`, via an arithmetic key. -/

/-- Encode an optional queue position as (tag, value) with NULL = (0, 0)
and a value v = (1, v), so that NULLS-FIRST ascending order becomes
lexicographic order on the pair. -/
def qpTag : Option ℤ → ℤ
  | none => 0
  | some _ => 1

/-- The value component of the queue-position encoding. -/
def qpVal : Option ℤ → ℤ
  | none => 0
  | some v => v

/-- The full sort key of a card row under the queue query's ORDER BY. -/
def key (c : CardRow) : ℤ × ℤ × ℤ × ℤ × ℕ :=
  (statePrio c.sched.state, c.sched.due, qpTag c.queue_position,
   qpVal c.queue_position, c.id)

/-- Strict lexicographic order on sort keys. -/
def klt (x y : ℤ × ℤ × ℤ × ℤ × ℕ) : Prop :=
  x.1 < y.1 ∨ (x.1 = y.1 ∧
    (x.2.1 < y.2.1 ∨ (x.2.1 = y.2.1 ∧
      (x.2.2.1 < y.2.2.1 ∨ (x.2.2.1 = y.2.2.1 ∧
        (x.2.2.2.1 < y.2.2.2.1 ∨ (x.2.2.2.1 = y.2.2.2.1 ∧
          x.2.2.2.2 < y.2.2.2.2)))))))

theorem rowLt_iff_klt (a b : CardRow) : rowLt a b ↔ klt (key a) (key b) := by
  unfold rowLt klt key
  rcases ha : a.queue_position with _ | qa <;>
    rcases hb : b.queue_position with _ | qb <;>
      simp [qpLt, qpTag, qpVal] <;> omega

theorem klt_irrefl (x : ℤ × ℤ × ℤ × ℤ × ℕ) : ¬ klt x x := by
  obtain ⟨x1, x2, x3, x4, x5⟩ := x; unfold klt; dsimp only; omega

theorem klt_trans {x y z : ℤ × ℤ × ℤ × ℤ × ℕ} :
    klt x y → klt y z → klt x z := by
  obtain ⟨x1, x2, x3, x4, x5⟩ := x
  obtain ⟨y1, y2, y3, y4, y5⟩ := y
  obtain ⟨z1, z2, z3, z4, z5⟩ := z
  unfold klt; dsimp only; omega

theorem klt_shift {x y z : ℤ × ℤ × ℤ × ℤ × ℕ} :
    ¬ klt x y → klt x z → klt y z := by
  obtain ⟨x1, x2, x3, x4, x5⟩ := x
  obtain ⟨y1, y2, y3, y4, y5⟩ := y
  obtain ⟨z1, z2, z3, z4, z5⟩ := z
  unfold klt; dsimp only; omega

theorem rowLt_irrefl (a : CardRow) : ¬ rowLt a a := by
  rw [rowLt_iff_klt]; exact klt_irrefl _

theorem rowLt_trans {a b c : CardRow} :
    rowLt a b → rowLt b c → rowLt a c := by
  rw [rowLt_iff_klt, rowLt_iff_klt, rowLt_iff_klt]; exact klt_trans

theorem rowLt_shift {a b c : CardRow} :
    ¬ rowLt a b → rowLt a c → rowLt b c := by
  rw [rowLt_iff_klt, rowLt_iff_klt, rowLt_iff_klt]; exact klt_shift

/-- The fold in `nextCard` returns an element of the candidate list. -/
theorem foldl_min_mem (t : List CardRow) :
    ∀ h : CardRow,
      t.foldl (fun acc c => if rowLt c acc then c else acc) h ∈ h :: t := by
  induction t with
  | nil => intro h; simp
  | cons c t ih =>
      intro h
      simp only [List.foldl_cons]
      by_cases hc : rowLt c h
      · rw [if_pos hc]
        have h1 := ih c
        simp only [List.mem_cons] at h1 ⊢
        tauto
      · rw [if_neg hc]
        have h1 := ih h
        simp only [List.mem_cons] at h1 ⊢
        tauto

/-- No element of the candidate list sorts strictly before the fold's
result: the result is a first row of the `ORDER BY ... LIMIT 1` query. -/
theorem foldl_min_not_lt (t : List CardRow) :
    ∀ h x : CardRow, x ∈ h :: t →
      ¬ rowLt x (t.foldl (fun acc c => if rowLt c acc then c else acc) h) := by
  induction t with
  | nil =>
      intro h x hx
      simp only [List.mem_singleton] at hx
      subst hx; simp only [List.foldl_nil]; exact rowLt_irrefl x
  | cons c t ih =>
      intro h x hx
      simp only [List.foldl_cons]
      simp only [List.mem_cons] at hx
      by_cases hc : rowLt c h
      · rw [if_pos hc]
        rcases hx with hxh | hxc | hxt
        · subst hxh
          intro hlt
          exact ih c c (List.mem_cons_self c t) (rowLt_trans hc hlt)
        · subst hxc
          exact ih x x (List.mem_cons_self x t)
        · exact ih c x (List.mem_cons.mpr (Or.inr hxt))
      · rw [if_neg hc]
        rcases hx with hxh | hxc | hxt
        · subst hxh
          exact ih x x (List.mem_cons_self x t)
        · subst hxc
          intro hlt
          exact ih h h (List.mem_cons_self h t) (rowLt_shift hc hlt)
        · exact ih h x (List.mem_cons.mpr (Or.inr hxt))

/-! ## Cloze-marker scanning (`anki.generate_cards_for_note`, note-tools.js
lines 149–170; identical code in `CSVImporter.generateCards` and
`MarkdownImporter.generateCards`)

The source runs `text.match(/\x7b\x7bc(\d+)::[^\x7d]+\x7d\x7d/g)`,
extracts the digit group of each match with `parseInt`, and deduplicates
with `new Set(...)` — which in JavaScript preserves **first-insertion
order**.  The regex engine finds the leftmost match and resumes after it;
because the content class `[^\x7d]+` cannot contain a closing brace, the
greedy maximal run followed by a literal check of the two closing braces
is exactly the regex's behaviour. -/

/-- The numeric value of a non-empty digit run (`parseInt`). -/
def digitsToNat (ds : List Char) : ℕ :=
  ds.foldl (fun a c => 10 * a + (c.toNat - 48)) 0

/-- Try to match `\x7b\x7bc(\d+)::[^\x7d]+\x7d\x7d` at the head of the
text; on success return the cloze number and the total length of the
match. -/
def parseClozeAt : List Char → Option (ℕ × ℕ)
  | '{' :: '{' :: 'c' :: rest =>
      let ds := rest.takeWhile Char.isDigit
      let r1 := rest.dropWhile Char.isDigit
      if ds.isEmpty then none
      else
        match r1 with
        | ':' :: ':' :: r2 =>
            let content := r2.takeWhile (fun c => c ≠ '}')
            let r3 := r2.dropWhile (fun c => c ≠ '}')
            if content.isEmpty then none
            else
              match r3 with
              | '}' :: '}' :: _ =>
                  some (digitsToNat ds, 3 + ds.length + 2 + content.length + 2)
              | _ => none
        | _ => none
  | _ => none

/-- One pass of the global regex: at each position try a match; on success
emit the cloze number and resume after the match, otherwise advance one
character.  `fuel` bounds the recursion (a match always consumes at least
one character, so `text.length` fuel suffices). -/
def scanClozeAux : ℕ → List Char → List ℕ
  | 0, _ => []
  | _ + 1, [] => []
  | fuel + 1, c :: cs =>
      match parseClozeAt (c :: cs) with
      | some (n, k) => n :: scanClozeAux fuel (List.drop k (c :: cs))
      | none => scanClozeAux fuel cs

/-- All cloze numbers of the text, one per regex match, in match order. -/
def scanCloze (text : List Char) : List ℕ :=
  scanClozeAux text.length text

/-- `[...new Set(list)]`: deduplication preserving first occurrences. -/
def dedupFirstAux (seen : List ℕ) : List ℕ → List ℕ
  | [] => []
  | n :: rest =>
      if n ∈ seen then dedupFirstAux seen rest
      else n :: dedupFirstAux (n :: seen) rest

/-- JavaScript `[...new Set(l)]`. -/
def dedupFirst (l : List ℕ) : List ℕ :=
  dedupFirstAux [] l

/-- `clozeNumbers` of the card-generation handlers: the distinct cloze
numbers of the text, in order of first occurrence. -/
def clozeNumbers (text : List Char) : List ℕ :=
  dedupFirst (scanCloze text)

/-- The card templates minted for a note, by model
(note-tools.js lines 108–174 / `generateCards` of the importers).  For a
cloze note the text scanned is `fields.front || fields.text || ''`. -/
def cardTemplates (model : String) (front text : String) : List String :=
  match model with
  | "basic" => ["forward"]
  | "basic_reverse" => ["forward", "reverse"]
  | "cloze" =>
      let src := if front == "" then text else front
      (clozeNumbers src.data).map (fun n => "cloze-" ++ toString n)
  | _ => []

/-! ## SQLite `LIKE` and the `tag:` search condition
(`parseSearchQuery`, src/unnamed/part_005 lines 87–91)

The source emits
`(n.tags LIKE 'v %' OR n.tags LIKE '% v %' OR n.tags LIKE '% v' OR
n.tags = v)`.
SQLite's `LIKE` is case-insensitive for the ASCII letters A–Z; `%`
matches any run of characters and `_` any single character; `=` is exact
(case-sensitive) comparison. -/

/-- ASCII lower-casing, as SQLite's `LIKE` applies it. -/
def lowerAscii (c : Char) : Char :=
  if 'A' ≤ c ∧ c ≤ 'Z' then Char.ofNat (c.toNat + 32) else c

/-- SQLite `LIKE` pattern matching over character lists. -/
def likeMatch : List Char → List Char → Bool
  | [], s => s.isEmpty
  | p :: ps, s =>
      if p = '%' then
        match s with
        | [] => likeMatch ps []
        | c :: s2 => likeMatch ps (c :: s2) || likeMatch (p :: ps) s2
      else
        match s with
        | [] => false
        | c :: s2 =>
            if p = '_' then likeMatch ps s2
            else (lowerAscii p == lowerAscii c) && likeMatch ps s2
termination_by p s => (p.length, s.length)

/-- The compiled `tag:` condition of `parseSearchQuery` applied to the
`tags` column of a note. -/
def tagCondition (v tags : List Char) : Bool :=
  likeMatch (v ++ [' ', '%']) tags ||
  likeMatch ('%' :: ' ' :: (v ++ [' ', '%'])) tags ||
  likeMatch ('%' :: ' ' :: v) tags ||
  tags == v

/-- The `tags` column value of a note with the given tag list
(`tags.join(' ')` in `add_note` and the importers). -/
def joinTags : List (List Char) → List Char
  | [] => []
  | [t] => t
  | t :: ts => t ++ ' ' :: joinTags ts

/-! Facts about `likeMatch` needed for the `tag:` condition. -/

/-- A leading `%` can be satisfied by the empty run. -/
theorem likeMatch_pct_skip {ps s : List Char}
    (h : likeMatch ps s = true) : likeMatch ('%' :: ps) s = true := by
  cases s with
  | nil => simpa [likeMatch] using h
  | cons c s2 =>
      simp only [likeMatch, reduceIte, Bool.or_eq_true]
      exact Or.inl h

/-- A leading `%` absorbs one more character. -/
theorem likeMatch_pct_cons {ps s : List Char} (c : Char)
    (h : likeMatch ('%' :: ps) s = true) :
    likeMatch ('%' :: ps) (c :: s) = true := by
  simp only [likeMatch, reduceIte, Bool.or_eq_true]
  exact Or.inr h

/-- A leading `%` absorbs any prefix. -/
theorem likeMatch_pct_append {ps s : List Char} (pre : List Char)
    (h : likeMatch ('%' :: ps) s = true) :
    likeMatch ('%' :: ps) (pre ++ s) = true := by
  induction pre with
  | nil => simpa using h
  | cons c pre ih => simpa using likeMatch_pct_cons c ih

/-- The pattern `%` alone matches every string. -/
theorem likeMatch_pct_all (s : List Char) : likeMatch ['%'] s = true := by
  induction s with
  | nil => simp [likeMatch]
  | cons c s ih =>
      simp only [likeMatch, reduceIte, Bool.or_eq_true]
      exact Or.inr ih

/-- A wildcard-free pattern prefix consumes an identical text prefix. -/
theorem likeMatch_append_same (v : List Char)
    (hv : ∀ c ∈ v, c ≠ '%' ∧ c ≠ '_') (p s : List Char) :
    likeMatch (v ++ p) (v ++ s) = likeMatch p s := by
  induction v with
  | nil => simp
  | cons c v ih =>
      obtain ⟨hc1, hc2⟩ := hv c (List.mem_cons_self c v)
      have hv2 : ∀ x ∈ v, x ≠ '%' ∧ x ≠ '_' :=
        fun x hx => hv x (List.mem_cons.mpr (Or.inr hx))
      simp [likeMatch, hc1, hc2, ih hv2]

/-- A blank is neither `%` nor `_`. -/
theorem space_not_wildcard : (' ' : Char) ≠ '%' ∧ (' ' : Char) ≠ '_' := by
  decide

/-- Prepending one more joined tag preserves a `tag:` match. -/
theorem tagCondition_extend (v t J : List Char)
    (hv : ∀ c ∈ v, c ≠ '%' ∧ c ≠ '_')
    (h : tagCondition v J = true) :
    tagCondition v (t ++ ' ' :: J) = true := by
  have hsp : ∀ c ∈ ' ' :: v, c ≠ '%' ∧ c ≠ '_' := by
    intro c hc
    rcases List.mem_cons.mp hc with rfl | hc2
    · exact space_not_wildcard
    · exact hv c hc2
  have he : t ++ ' ' :: J = (t ++ [' ']) ++ J := by simp
  simp only [tagCondition, Bool.or_eq_true, beq_iff_eq] at h
  rcases h with ((h1 | h2) | h3) | h4
  · -- `v %` matched the old column; `% v %` matches the extended one.
    have hx : likeMatch ('%' :: ' ' :: (v ++ [' ', '%'])) (t ++ ' ' :: J)
        = true := by
      apply likeMatch_pct_append t
      apply likeMatch_pct_skip
      have hsame := likeMatch_append_same [' '] (by decide) (v ++ [' ', '%']) J
      simp only [List.singleton_append] at hsame
      rw [hsame]; exact h1
    simp [tagCondition, hx]
  · have hx : likeMatch ('%' :: ' ' :: (v ++ [' ', '%'])) (t ++ ' ' :: J)
        = true := by
      rw [he]; exact likeMatch_pct_append (t ++ [' ']) h2
    simp [tagCondition, hx]
  · have hx : likeMatch ('%' :: ' ' :: v) (t ++ ' ' :: J) = true := by
      rw [he]; exact likeMatch_pct_append (t ++ [' ']) h3
    simp [tagCondition, hx]
  · subst h4
    have hx : likeMatch ('%' :: ' ' :: J) (t ++ ' ' :: J) = true := by
      apply likeMatch_pct_append t
      apply likeMatch_pct_skip
      have hsame := likeMatch_append_same (' ' :: J) hsp [] []
      simpa [likeMatch] using hsame
    simp [tagCondition, hx]

/-- Modelled from the spec: the whitespace-delimited tag list of a `tags`
column value, split at spaces (empty segments included, as
`String.split` would produce them). -/
def splitOnSpace : List Char → List (List Char)
  | [] => [[]]
  | c :: rest =>
      let r := splitOnSpace rest
      if c = ' ' then [] :: r
      else
        match r with
        | [] => [[c]]
        | t :: ts => (c :: t) :: ts

/-- C8 (amended): the `tag:v` condition is sound for exact containment —
whenever the note's space-joined tag list contains the tag `v` (for `v`
without SQL wildcards), the compiled condition matches.  (The converse
direction of the claim fails: see the counterexample, the match is not
case-sensitive.) -/
theorem tagCondition_contains_exact_tag (ts : List (List Char))
    (v : List Char) (hv : ∀ c ∈ v, c ≠ '%' ∧ c ≠ '_') (hmem : v ∈ ts) :
    tagCondition v (joinTags ts) = true := by
  induction ts with
  | nil => cases hmem
  | cons t rest ih =>
      rcases List.mem_cons.mp hmem with rfl | hmem2
      · cases rest with
        | nil => simp [tagCondition, joinTags]
        | cons r2 rs =>
            have hx : likeMatch (v ++ [' ', '%'])
                (v ++ ' ' :: joinTags (r2 :: rs)) = true := by
              rw [likeMatch_append_same v hv [' ', '%']
                    (' ' :: joinTags (r2 :: rs))]
              have h2 := likeMatch_append_same [' '] (by decide) ['%']
                (joinTags (r2 :: rs))
              simp only [List.singleton_append] at h2
              rw [h2]
              exact likeMatch_pct_all _
            have hjoin : joinTags (v :: r2 :: rs)
                = v ++ ' ' :: joinTags (r2 :: rs) := rfl
            rw [hjoin]
            simp [tagCondition, hx]
      · cases rest with
        | nil => cases hmem2
        | cons r2 rs =>
            have hjoin : joinTags (t :: r2 :: rs)
                = t ++ ' ' :: joinTags (r2 :: rs) := rfl
            rw [hjoin]
            exact tagCondition_extend v t _ hv (ih hmem2)

/-- C8 (witness): the tag `t1` of a note tagged `t1 t2` is found by the
compiled `tag:t1` condition. -/
theorem tagCondition_contains_exact_tag_witness :
    tagCondition "t1".data (joinTags ["t1".data, "t2".data]) = true :=
  tagCondition_contains_exact_tag ["t1".data, "t2".data] "t1".data
    (by decide) (by decide)

/-- C8 (counterexample): the match is not case-sensitive, so the result
set is not *exactly* the notes whose tag list contains `v`: a note
tagged `Greeting x` matches `tag:greeting` although its tag list does
not contain `greeting`.  (At the same time a single-tag note `Greeting`
does **not** match, because only the `LIKE` alternatives are
case-insensitive while the whole-column `=` is exact.) -/
theorem tagCondition_case_insensitive_counterexample :
    tagCondition "greeting".data "Greeting x".data = true ∧
    "greeting".data ∉ splitOnSpace "Greeting x".data ∧
    tagCondition "greeting".data "Greeting".data = false := by
  refine ⟨?_, by decide, ?_⟩
  · simp +decide [tagCondition, likeMatch, lowerAscii]
  · simp +decide [tagCondition, likeMatch, lowerAscii]

/-! ## The import pipeline (`CSVImporter` csv-importer.js;
`MarkdownImporter.processRecord` is line-for-line the same on the fields
modelled here)

The store is reduced to what `processRecord` touches: the set of deck
names and, per note, the deck name and the serialised `fields_json`
column that `checkDuplicate` probes with SQL `LIKE`.  Parsing of the
payload (the external `csv-parse` library / `parseMarkdown`) happens
before `processRecord`; the model starts from the parsed records. -/

/-- One parsed import record.  Missing CSV columns arrive as `''` and are
defaulted with `||` in the source, which the empty string reproduces. -/
structure ImpRecord where
  deck : String
  model : String
  front : String
  back : String
  extra : String
deriving DecidableEq, Repr

/-- A row of `notes` as `checkDuplicate` sees it. -/
structure StoredNote where
  deckName : String
  fieldsJson : String
deriving DecidableEq, Repr

/-- The store as the importer sees it. -/
structure ImpStore where
  decks : List String
  notes : List StoredNote
deriving DecidableEq, Repr

/-- JSON string escaping of `JSON.stringify` for the characters that can
occur in the modelled fields (quote and backslash; control characters are
outside the model). -/
def jsonEscape (s : String) : String :=
  ⟨s.data.foldr (fun c acc =>
    if c = '"' then '\\' :: '"' :: acc
    else if c = '\\' then '\\' :: '\\' :: acc
    else c :: acc) []⟩

/-- `JSON.stringify({ front, back, extra })` as stored in `fields_json`
by `createNote`. -/
def fieldsJsonStr (front back extra : String) : String :=
  "\x7b\"front\":\"" ++ jsonEscape front ++ "\",\"back\":\"" ++
    jsonEscape back ++ "\",\"extra\":\"" ++ jsonEscape extra ++ "\"\x7d"

/-- `checkDuplicate(deckName, front, back)` (csv-importer.js lines
149–163): a note of the deck whose `fields_json` matches both LIKE
patterns `%"front":"F"%` and `%"back":"B"%`, with `front`/`back`
interpolated raw into the pattern. -/
def checkDuplicate (notes : List StoredNote) (dname front back : String) :
    Bool :=
  notes.any fun n =>
    n.deckName == dname &&
    likeMatch ("%\"front\":\"" ++ front ++ "\"%").data n.fieldsJson.data &&
    likeMatch ("%\"back\":\"" ++ back ++ "\"%").data n.fieldsJson.data

/-- `getCardCount(model, fields)` of the importers (dry-run counting). -/
def getCardCount (model : String) (front text : String) : ℕ :=
  match model with
  | "basic" => 1
  | "basic_reverse" => 2
  | "cloze" => (clozeNumbers (if front == "" then text else front).data).length
  | _ => 1

/-- `processRecord(record, deckDefault, dedupe, dryRun, results)`
(csv-importer.js lines 70–110).  Returns an error message (`throw`), or
the new store together with the `insertedNotes` / `insertedCards`
increments.  A detected duplicate returns with no increment and no error
(`return; // Skip duplicate`). -/
def processRecord (store : ImpStore) (deckDefault : String)
    (dedupe dryRun : Bool) (r : ImpRecord) :
    Except String (ImpStore × ℕ × ℕ) :=
  let deck := if r.deck == "" then deckDefault else r.deck
  let model := if r.model == "" then "basic" else r.model
  if r.front == "" then .error "Front field is required"
  else if model == "basic" && r.back == "" then
    .error "Back field is required for basic model"
  else if dedupe && checkDuplicate store.notes deck r.front r.back then
    .ok (store, 0, 0)
  else if !dryRun then
    if store.decks.contains deck then
      .ok ({ store with
             notes := store.notes ++
               [⟨deck, fieldsJsonStr r.front r.back r.extra⟩] },
           1, (cardTemplates model r.front "").length)
    else .error ("Deck not found: " ++ deck)
  else .ok (store, 1, getCardCount model r.front "")

/-- Accumulated result of an import run. -/
structure ImportResults where
  insertedNotes : ℕ
  insertedCards : ℕ
  errors : List (ℕ × String)
deriving DecidableEq, Repr

/-- The batch loop of `CSVImporter.import` (lines 25–36): each record is
processed in order; a thrown error is recorded as `(row = i + 1, message)`
and the loop continues. -/
def importAux (deckDefault : String) (dedupe dryRun : Bool) :
    ImpStore → ℕ → List ImpRecord → ImpStore × ImportResults
  | store, _, [] => (store, ⟨0, 0, []⟩)
  | store, i, r :: rs =>
      match processRecord store deckDefault dedupe dryRun r with
      | .ok (store2, n, c) =>
          let (store3, res) := importAux deckDefault dedupe dryRun store2 (i + 1) rs
          (store3, ⟨n + res.insertedNotes, c + res.insertedCards, res.errors⟩)
      | .error m =>
          let (store3, res) := importAux deckDefault dedupe dryRun store (i + 1) rs
          (store3, ⟨res.insertedNotes, res.insertedCards,
                    (i + 1, m) :: res.errors⟩)

/-- `ensureDeckExists(deckDefault)`: create the default deck (with the
default configuration) when it is absent. -/
def ensureDeck (store : ImpStore) (deckName : String) : ImpStore :=
  if store.decks.contains deckName then store
  else { store with decks := store.decks ++ [deckName] }

/-- `CSVImporter.import(records, options)` from the parsed records on. -/
def importRun (store : ImpStore) (deckDefault : String)
    (dedupe dryRun : Bool) (records : List ImpRecord) :
    ImpStore × ImportResults :=
  importAux deckDefault dedupe dryRun (ensureDeck store deckDefault) 0 records

/-! ## Fixtures for the concrete theorems -/

/-- The card of spec scenario 4: a `review` card with `ivl=10, ease=2.5,
lapses=7`. -/
def lapseCard : SchedState := ⟨.review, 0, 10, 2.5, 7, 7⟩

/-- A one-card store holding `lapseCard` (card 1 of note 1). -/
def leechDB : DB := ⟨[⟨1, 1, lapseCard, none⟩], []⟩

/-- A one-card store holding a fresh `new` card. -/
def newCardDB : DB := ⟨[⟨1, 1, ⟨.new, 0, 0, 2.5, 0, 0⟩, none⟩], []⟩

/-- Two `new` sibling cards of the same note 1. -/
def siblingDB : DB :=
  ⟨[⟨1, 1, ⟨.new, 0, 0, 2.5, 0, 0⟩, none⟩,
    ⟨2, 1, ⟨.new, 0, 0, 2.5, 0, 0⟩, none⟩], []⟩

/-! ## Claim theorems -/

/-- C1 (amended): for every `review` card and every configuration,
`answer_card` with rating 1 (the `applyScheduling` the handler runs)
yields `lapses + 1`, state `relearning` unconditionally — the leech rule
is never applied on this path — `ease = max(minEase, ease − 0.2)`,
`ivl = 0` and `due = today`. -/
theorem applyScheduling_review_again (due ivl : ℤ) (ease : ℚ)
    (reps lapses : ℕ) (cfg : Config) (today : ℤ) (fz : ℚ) :
    applyScheduling ⟨.review, due, ivl, ease, reps, lapses⟩ 1 cfg today fz =
      ⟨.relearning, today, 0, max cfg.minEase (ease - 0.2),
       reps + 1, lapses + 1⟩ := rfl

/-- C1 (counterexample): on the claim's own instance — spec scenario 4, a
`review` card with `ivl=10, ease=2.5, lapses=7` under
`leechThreshold = 8`, `leechAction = suspend` — the review brings `lapses`
to the threshold, yet `answer_card`'s `applyScheduling` leaves the card
`relearning`, not `suspended` as the claim's leech proviso requires. -/
theorem applyScheduling_review_again_leech_counterexample :
    (applyScheduling lapseCard 1 defaultConfig 100 0).state
        = CState.relearning ∧
    (applyScheduling lapseCard 1 defaultConfig 100 0).lapses = 8 ∧
    8 ≥ defaultConfig.leechThreshold ∧
    defaultConfig.leechAction = .suspend ∧
    CState.relearning ≠ CState.suspended := by decide

/-- C2: a rating-1 review via `anki_answer_card` that brings `lapses` to
`leechThreshold` under `leechAction = suspend` commits the card as
`relearning`, not `suspended`: the handler's inline `applyScheduling`
omits the leech check that the repository's own `Scheduler` class
(`scheduleReviewCard`) performs, as the second conjunct shows. -/
theorem answerCard_leech_divergence :
    ((answerCardRun leechDB 1 1 defaultConfig 100 5000 0 false).db.cards.map
        (fun c => c.sched.state) = [CState.relearning]) ∧
    (scheduleCard defaultConfig 1 lapseCard 1 100).map
        (fun p => p.2.state) = some CState.suspended := by decide

/-- C3: the card UPDATE and the review INSERT of `anki_answer_card` are
not atomic.  When the INSERT fails, the handler throws (`ok = false`),
yet the card's scheduling fields are already the updated ones (state
`learning`, `reps = 1`) while no review row exists — the update is
observable on its own, contradicting the claimed single transaction. -/
theorem answerCard_not_atomic :
    (answerCardRun newCardDB 1 3 defaultConfig 10 999 0 true).ok = false ∧
    (findCard (answerCardRun newCardDB 1 3 defaultConfig 10 999 0 true).db 1).map
        (fun c => c.sched) = some ⟨.learning, 10, 0, 2.5, 1, 0⟩ ∧
    (answerCardRun newCardDB 1 3 defaultConfig 10 999 0 true).db.reviews
        = [] := by
  refine ⟨rfl, ?_, rfl⟩
  simp +decide [answerCardRun, newCardDB, findCard, updateCard,
    applyScheduling, defaultConfig]

/-- C4: with `burySiblings = true` in the deck configuration (the
default), answering card 1 of a two-card note leaves the sibling card 2
in state `new` — the `anki_answer_card` handler never buries siblings
(`Scheduler.shouldBurySiblings` has no caller on this path). -/
theorem answerCard_no_sibling_burial :
    defaultConfig.burySiblings = true ∧
    (answerCardRun siblingDB 1 3 defaultConfig 0 100 0 false).ok = true ∧
    (findCard (answerCardRun siblingDB 1 3 defaultConfig 0 100 0 false).db 2).map
        (fun c => c.sched.state) = some CState.new := by decide

/-- Elements of `dedupFirstAux seen l` avoid `seen` and are mutually
distinct. -/
theorem dedupFirstAux_nodup (l : List ℕ) :
    ∀ seen, (dedupFirstAux seen l).Nodup ∧
      ∀ n ∈ dedupFirstAux seen l, n ∉ seen := by
  induction l with
  | nil => intro seen; exact ⟨List.nodup_nil, by simp [dedupFirstAux]⟩
  | cons m rest ih =>
      intro seen
      by_cases hm : m ∈ seen
      · simpa [dedupFirstAux, hm] using ih seen
      · have ih2 := ih (m :: seen)
        refine ⟨?_, ?_⟩
        · simp only [dedupFirstAux, if_neg hm]
          refine List.Nodup.cons ?_ ih2.1
          intro hmem
          exact (ih2.2 m hmem) (List.mem_cons_self m seen)
        · simp only [dedupFirstAux, if_neg hm]
          intro n hn
          rcases List.mem_cons.mp hn with rfl | hn2
          · exact hm
          · intro hns
            exact (ih2.2 n hn2) (List.mem_cons.mpr (Or.inr hns))

/-- Membership in `dedupFirstAux seen l`: exactly the elements of `l`
outside `seen`. -/
theorem dedupFirstAux_mem (l : List ℕ) :
    ∀ seen n, n ∈ dedupFirstAux seen l ↔ (n ∈ l ∧ n ∉ seen) := by
  induction l with
  | nil => intro seen n; simp [dedupFirstAux]
  | cons m rest ih =>
      intro seen n
      by_cases hm : m ∈ seen
      · rw [show dedupFirstAux seen (m :: rest) = dedupFirstAux seen rest from
            by simp [dedupFirstAux, hm]]
        rw [ih seen n]
        simp only [List.mem_cons]
        constructor
        · rintro ⟨h1, h2⟩; exact ⟨Or.inr h1, h2⟩
        · rintro ⟨h1 | h1, h2⟩
          · subst h1; exact absurd hm h2
          · exact ⟨h1, h2⟩
      · rw [show dedupFirstAux seen (m :: rest)
              = m :: dedupFirstAux (m :: seen) rest from
            by simp [dedupFirstAux, hm]]
        simp only [List.mem_cons, ih (m :: seen) n]
        constructor
        · rintro (rfl | ⟨h1, h2⟩)
          · exact ⟨Or.inl rfl, hm⟩
          · exact ⟨Or.inr h1, fun hs => h2 (Or.inr hs)⟩
        · rintro ⟨rfl | h1, h2⟩
          · exact Or.inl rfl
          · by_cases hnm : n = m
            · exact Or.inl hnm
            · exact Or.inr ⟨h1, fun hs => hs.elim hnm h2⟩

/-- Cloze text whose markers appear in descending numeric order. -/
def clozeOrderText : List Char := ("\x7b\x7bc2::b\x7d\x7d \x7b\x7bc1::a\x7d\x7d").data

/-- C7 (amended): card generation for a cloze note mints exactly one card
per distinct cloze number found in the text (including `c0`: any `\d+` is
accepted), in order of **first occurrence** in the text rather than
ascending numeric order; a text with zero markers yields zero cards. -/
theorem clozeNumbers_distinct_first_occurrence :
    (∀ text : List Char, (clozeNumbers text).Nodup) ∧
    (∀ (text : List Char) (n : ℕ),
        n ∈ clozeNumbers text ↔ n ∈ scanCloze text) ∧
    (∀ text : List Char, scanCloze text = [] → clozeNumbers text = []) ∧
    clozeNumbers
        ("La \x7b\x7bc1::furosemida\x7d\x7d es un \x7b\x7bc2::diuretico\x7d\x7d.").data
      = [1, 2] := by
  refine ⟨?_, ?_, ?_, by decide⟩
  · intro text
    exact (dedupFirstAux_nodup (scanCloze text) []).1
  · intro text n
    rw [clozeNumbers, dedupFirst, dedupFirstAux_mem (scanCloze text) [] n]
    simp
  · intro text h
    simp [clozeNumbers, h, dedupFirst, dedupFirstAux]

/-- C7 (witness): the distinctness and zero-marker parts of the amended
claim, instantiated at the descending-order text and the empty text. -/
theorem clozeNumbers_distinct_first_occurrence_witness :
    (clozeNumbers clozeOrderText).Nodup ∧
    clozeNumbers ([] : List Char) = [] :=
  ⟨clozeNumbers_distinct_first_occurrence.1 clozeOrderText,
   clozeNumbers_distinct_first_occurrence.2.2.1 [] rfl⟩

/-- C7 (counterexample): on the text `\x7b\x7bc2::b\x7d\x7d
\x7b\x7bc1::a\x7d\x7d` the generator mints `cloze-2` before `cloze-1` —
first-occurrence order, not the ascending order the claim states — and a
`\x7b\x7bc0::x\x7d\x7d` marker mints a `cloze-0` card although the claim
admits only positive numbers. -/
theorem clozeNumbers_order_counterexample :
    clozeNumbers clozeOrderText = [2, 1] ∧
    ([2, 1] : List ℕ) ≠ [1, 2] ∧
    cardTemplates "cloze" "\x7b\x7bc2::b\x7d\x7d \x7b\x7bc1::a\x7d\x7d" ""
      = ["cloze-2", "cloze-1"] ∧
    clozeNumbers ("\x7b\x7bc0::x\x7d\x7d").data = [0] := by decide

/-- A due `new` card, table-first and with the smaller id. -/
def cNew : CardRow := ⟨1, 2, ⟨.new, 0, 0, 2.5, 0, 0⟩, none⟩

/-- A due `learning` card with the larger id. -/
def cLearning : CardRow := ⟨2, 1, ⟨.learning, 0, 0, 2.5, 1, 0⟩, none⟩

/-- Queue fixture: a due `new` card and a due `learning` card. -/
def queueDB : DB := ⟨[cNew, cLearning], []⟩

/-- Queue fixture for the NULL ordering: two `new` cards, same due, one
with `queue_position` NULL and one with `queue_position = 5`. -/
def cQpNone : CardRow := ⟨1, 1, ⟨.new, 0, 0, 2.5, 0, 0⟩, none⟩

/-- The sibling row with `queue_position = 5`. -/
def cQpFive : CardRow := ⟨2, 2, ⟨.new, 0, 0, 2.5, 0, 0⟩, some 5⟩

/-- Store holding `cQpNone` and `cQpFive`. -/
def queueDB2 : DB := ⟨[cQpNone, cQpFive], []⟩

/-- C5 (amended): `get_next_card` returns a candidate — a card with state
in {learning, relearning, new, review} and `due ≤ today` — that no other
candidate sorts strictly before under the query's ORDER BY: state
priority `learning < relearning < new < review`, then `due ASC`, then
`queue_position ASC` with NULL queue positions **first** (SQLite's ASC
NULL placement), then `id ASC`. -/
theorem nextCard_minimal (db : DB) (today : ℤ) (c : CardRow)
    (h : nextCard db today = some c) :
    c ∈ dueCandidates db today ∧
    ∀ x ∈ dueCandidates db today, ¬ rowLt x c := by
  unfold nextCard at h
  rcases hd : dueCandidates db today with _ | ⟨h0, t⟩ <;> rw [hd] at h
  · cases h
  · simp only [Option.some.injEq] at h
    subst h
    refine ⟨?_, ?_⟩
    · exact foldl_min_mem t h0
    · intro x hx
      exact foldl_min_not_lt t h0 x hx

/-- C5 (witness): on `queueDB` — one due `learning` card, one due `new`
card — the returned card is the `learning` one, and the `new` card does
not sort before it. -/
theorem nextCard_minimal_witness :
    cLearning ∈ dueCandidates queueDB 0 ∧ ¬ rowLt cNew cLearning :=
  ⟨(nextCard_minimal queueDB 0 cLearning rfl).1,
   (nextCard_minimal queueDB 0 cLearning rfl).2 cNew
     (List.mem_cons_self cNew [cLearning])⟩

/-- C5 (counterexample): the claim's "NULL queue_positions last" is
false.  With two otherwise-tied `new` cards, the code
(`queue_position ASC` in SQLite, NULLs first) returns the card with the
NULL queue position, while the claimed NULLS-LAST ordering
(`nextCardSpec`) returns the other card. -/
theorem nextCard_nulls_first_counterexample :
    nextCard queueDB2 0 = some cQpNone ∧
    nextCardSpec queueDB2 0 = some cQpFive ∧
    cQpNone.queue_position = none ∧
    cQpFive.queue_position = some 5 ∧
    cQpNone.id ≠ cQpFive.id := by
  refine ⟨rfl, rfl, rfl, rfl, by decide⟩

/-- C6: answering a `new` card with rating 4 increments `reps` and yields
state `review`, `ivl = ⌈graduatingIntervalDays · easyBonus⌉`,
`due = today + ivl`, `ease = 2.65`; with the default configuration the
interval is `⌈1 · 1.3⌉ = 2`, and the committed run writes exactly one
review-log row. -/
theorem answerCard_new_easy :
    (∀ (due ivl : ℤ) (ease : ℚ) (reps lapses : ℕ) (cfg : Config)
        (today : ℤ) (fz : ℚ),
      applyScheduling ⟨.new, due, ivl, ease, reps, lapses⟩ 4 cfg today fz =
        ⟨.review,
         today + ⌈(cfg.graduatingIntervalDays : ℚ) * cfg.easyBonus⌉,
         ⌈(cfg.graduatingIntervalDays : ℚ) * cfg.easyBonus⌉,
         2.5 + 0.15, reps + 1, lapses⟩) ∧
    (⌈(defaultConfig.graduatingIntervalDays : ℚ) * defaultConfig.easyBonus⌉
        = (2 : ℤ)) ∧
    ((2.5 + 0.15 : ℚ) = 2.65) ∧
    (answerCardRun newCardDB 1 4 defaultConfig 0 100 0 false).ok = true ∧
    (answerCardRun newCardDB 1 4 defaultConfig 0 100 0 false).db.reviews.length
        = 1 ∧
    (findCard (answerCardRun newCardDB 1 4 defaultConfig 0 100 0 false).db 1).map
        (fun c => c.sched) = some ⟨.review, 2, 2, 2.65, 1, 0⟩ := by
  refine ⟨fun due ivl ease reps lapses cfg today fz => rfl, ?_, by norm_num, ?_, ?_, ?_⟩
  · norm_num [defaultConfig, ceil_13_10]
  · norm_num [answerCardRun, newCardDB, findCard, updateCard,
      applyScheduling, defaultConfig, ceil_13_10]
  · norm_num [answerCardRun, newCardDB, findCard, updateCard,
      applyScheduling, defaultConfig, ceil_13_10]
  · norm_num [answerCardRun, newCardDB, findCard, updateCard,
      applyScheduling, defaultConfig, ceil_13_10]

/-! ## C9: duplicate handling during import -/

/-- A store whose `Inbox` deck already holds a note with front `Q` and
back `A`. -/
def dupStore : ImpStore := ⟨["Inbox"], [⟨"Inbox", fieldsJsonStr "Q" "A" ""⟩]⟩

/-- An import record identical to the stored note. -/
def dupRecord : ImpRecord := ⟨"", "basic", "Q", "A", ""⟩

/-- C9 (amended): with `dedupe = true`, a record whose front and back
match an existing note of the target deck is skipped without inserting a
note or cards and without counting toward `insertedNotes` — and the skip
is silent: `processRecord` returns normally, so nothing is recorded in
the `errors` array (which collects thrown errors only). -/
theorem processRecord_duplicate_silent_skip (store : ImpStore)
    (dd : String) (dryRun : Bool) (r : ImpRecord)
    (hf : (r.front == "") = false)
    (hm : (((if r.model == "" then "basic" else r.model) == "basic")
            && (r.back == "")) = false)
    (hdup : checkDuplicate store.notes (if r.deck == "" then dd else r.deck)
              r.front r.back = true) :
    processRecord store dd true dryRun r = .ok (store, 0, 0) := by
  unfold processRecord
  simp only [hf, hm, hdup]
  simp

/-- C9 (witness): the duplicate record `(Q, A)` against `dupStore`. -/
theorem processRecord_duplicate_silent_skip_witness :
    processRecord dupStore "Inbox" true false dupRecord
      = .ok (dupStore, 0, 0) :=
  processRecord_duplicate_silent_skip dupStore "Inbox" false dupRecord
    (by decide) (by decide)
    (by simp +decide [checkDuplicate, dupStore, dupRecord, fieldsJsonStr,
          jsonEscape, likeMatch, lowerAscii])

/-- C9 (counterexample): importing the duplicate record over `dupStore`
yields `insertedNotes = 0`, `insertedCards = 0` and an **empty** `errors`
array — the claim that the skipped record "is recorded in the returned
errors array" is false. -/
theorem import_duplicate_not_in_errors_counterexample :
    (importRun dupStore "Inbox" true false [dupRecord]).2
      = ⟨0, 0, []⟩ ∧
    checkDuplicate dupStore.notes "Inbox" "Q" "A" = true := by
  constructor
  · simp +decide [importRun, importAux, ensureDeck, processRecord, dupStore,
      dupRecord, checkDuplicate, fieldsJsonStr, jsonEscape, likeMatch,
      lowerAscii]
  · simp +decide [checkDuplicate, dupStore, fieldsJsonStr, jsonEscape,
      likeMatch, lowerAscii]

/-! ## C10: the `Scheduler` class against the handler's inline
`applyScheduling` -/

/-- The default hard-interval multiplier is at least 1. -/
theorem hardInterval_default_ge_one : (1 : ℚ) ≤ defaultConfig.hardInterval := by
  norm_num [defaultConfig]

/-- The default initial ease is at least 1. -/
theorem ease_default_ge_one : (1 : ℚ) ≤ (2.5 : ℚ) := by norm_num

/-- C10 (amended): with the fuzz factor fixed (`getFuzzFactor() = 1`,
sampled fuzz `= 0`), `Scheduler.scheduleCard` and the handler's
`applyScheduling` compute the same after-state for `new` cards at every
rating 1–4 and for `learning`/`relearning` cards at ratings 1–3; for
`review` cards they agree at ratings 2–3 whenever `ivl ≥ 1`,
`hardInterval ≥ 1` and `ease ≥ 1` (so that the `Scheduler`'s
minimum-interval clamp is inactive).  They genuinely differ at
`learning`/`relearning` rating 4, `review` rating 1 and `review` rating 4
(see the counterexample). -/
theorem scheduler_applyScheduling_agreement :
    (∀ (cfg : Config) (s : SchedState) (r : ℕ) (today : ℤ),
        s.state = CState.new → 1 ≤ r → r ≤ 4 →
        (scheduleCard cfg 1 s r today).map Prod.snd
          = some (applyScheduling s r cfg today 0)) ∧
    (∀ (cfg : Config) (s : SchedState) (r : ℕ) (today : ℤ),
        (s.state = CState.learning ∨ s.state = CState.relearning) →
        1 ≤ r → r ≤ 3 →
        (scheduleCard cfg 1 s r today).map Prod.snd
          = some (applyScheduling s r cfg today 0)) ∧
    (∀ (cfg : Config) (s : SchedState) (r : ℕ) (today : ℤ),
        s.state = CState.review → (r = 2 ∨ r = 3) →
        1 ≤ s.ivl → 1 ≤ cfg.hardInterval → 1 ≤ s.ease →
        (scheduleCard cfg 1 s r today).map Prod.snd
          = some (applyScheduling s r cfg today 0)) := by
  refine ⟨?_, ?_, ?_⟩
  · rintro cfg ⟨st, due, ivl, ease, reps, lapses⟩ r today hst h1 h4
    subst hst
    interval_cases r <;>
      simp [scheduleCard, scheduleNewCard, applyScheduling]
  · rintro cfg ⟨st, due, ivl, ease, reps, lapses⟩ r today hst h1 h3
    have hr : r = 1 ∨ r = 2 ∨ r = 3 := by omega
    rcases hst with hst | hst <;> subst hst <;>
      rcases hr with rfl | rfl | rfl <;>
        by_cases he : ease = 2.5 <;>
          simp [scheduleCard, scheduleLearningCard, applyScheduling, he]
  · rintro cfg ⟨st, due, ivl, ease, reps, lapses⟩ r today hst hr hivl hhard hease
    subst hst
    have hivq : (1 : ℚ) ≤ (ivl : ℚ) := by exact_mod_cast hivl
    rcases hr with rfl | rfl
    · have hx : (1 : ℚ) ≤ (ivl : ℚ) * cfg.hardInterval := by
        calc (1 : ℚ) = 1 * 1 := by ring
        _ ≤ (ivl : ℚ) * cfg.hardInterval :=
            mul_le_mul hivq hhard zero_le_one (le_trans zero_le_one hivq)
      have hceil : (1 : ℤ) ≤ ⌈(ivl : ℚ) * cfg.hardInterval * 1⌉ := by
        rw [mul_one]
        have := Int.ceil_pos.mpr (lt_of_lt_of_le zero_lt_one hx)
        omega
      simp only [scheduleCard, scheduleReviewCard, applyScheduling]
      rw [if_neg (by omega)]
      norm_num
    · have hx : (1 : ℚ) ≤ (ivl : ℚ) * ease := by
        calc (1 : ℚ) = 1 * 1 := by ring
        _ ≤ (ivl : ℚ) * ease :=
            mul_le_mul hivq hease zero_le_one (le_trans zero_le_one hivq)
      have hceil : (1 : ℤ) ≤ ⌈(ivl : ℚ) * ease * 1⌉ := by
        rw [mul_one]
        have := Int.ceil_pos.mpr (lt_of_lt_of_le zero_lt_one hx)
        omega
      simp only [scheduleCard, scheduleReviewCard, applyScheduling]
      rw [if_neg (by omega)]
      norm_num

/-- C10 (witness): agreement instances — a `new` card at rating 3 and a
`review` card (`ivl = 10`, `ease = 2.5`) at rating 3 under the default
configuration. -/
theorem scheduler_applyScheduling_agreement_witness :
    (scheduleCard defaultConfig 1 ⟨.new, 0, 0, 2.5, 0, 0⟩ 3 0).map Prod.snd
      = some (applyScheduling ⟨.new, 0, 0, 2.5, 0, 0⟩ 3 defaultConfig 0 0) ∧
    (scheduleCard defaultConfig 1 ⟨.review, 5, 10, 2.5, 3, 0⟩ 3 7).map Prod.snd
      = some (applyScheduling ⟨.review, 5, 10, 2.5, 3, 0⟩ 3 defaultConfig 7 0) :=
  ⟨scheduler_applyScheduling_agreement.1 defaultConfig
      ⟨.new, 0, 0, 2.5, 0, 0⟩ 3 0 rfl (by decide) (by decide),
   scheduler_applyScheduling_agreement.2.2 defaultConfig
      ⟨.review, 5, 10, 2.5, 3, 0⟩ 3 7 rfl (Or.inr rfl) (by decide)
      hardInterval_default_ge_one ease_default_ge_one⟩

/-- C10 (counterexample): the two implementations do not compute the same
after-state everywhere.  On a `learning` card answered Easy (rating 4)
with the default configuration and fuzz fixed, the `Scheduler` applies
the easy bonus (`ivl = ⌈1 · 1.3⌉ = 2`) and raises ease to 2.65, while the
handler's `applyScheduling` graduates with `ivl = 1` and ease 2.5. -/
theorem scheduler_applyScheduling_counterexample :
    (scheduleCard defaultConfig 1 ⟨.learning, 0, 0, 2.5, 1, 0⟩ 4 0).map
        Prod.snd = some ⟨.review, 2, 2, 2.65, 1, 0⟩ ∧
    applyScheduling ⟨.learning, 0, 0, 2.5, 1, 0⟩ 4 defaultConfig 0 0
      = ⟨.review, 1, 1, 2.5, 1, 0⟩ ∧
    (2 : ℤ) ≠ 1 := by
  refine ⟨?_, ?_, by decide⟩
  · norm_num [scheduleCard, scheduleLearningCard, defaultConfig, ceil_13_10]
  · norm_num [applyScheduling, defaultConfig]

end AnkiMCP


